import Mathlib

/-!
Verification development for `src/data_loader2.py` (class `SNP100DataLoader`).

Conventions of the shallow embedding:
* Calendar dates are modelled as integers counting days since 1970-01-01
  (so 1970-01-01 is day 0, a Thursday).  The weekday of day `d` is
  `(d + 3) % 7` with Monday = 0 … Sunday = 6, matching the Python
  `date.weekday()` convention.
* `END_DATE` (`pd.Timestamp` of 2024-11-16) is day 20043, a Saturday.
* Prices are rationals; a missing value (pandas `NaN`) is `none`.
* The external market-data collaborator (`vbt.YFData.download` + the
  shaping done in `download_single_ticker`) is an oracle
  `fetch : String → ℤ → Option ColSeries`: `none` models the `except`
  branch of `download_single_ticker` returning `None`, `some s` a
  successfully shaped single-column closing-price series.
* `pd.Timestamp` parsing of strings is an oracle `parse : String → Option ℤ`.
* A raised-and-not-caught Python exception is `Except.error`.
-/

namespace DataLoader2

/-- Constant `DEFAULT_TICKERS` from the source (95 symbols). -/
def DEFAULT_TICKERS : List String := [
  "NVDA", "AAPL", "MSFT", "AMZN", "GOOGL", "GOOG", "META", "TSLA", "AVGO",
  "COST", "NFLX", "ASML", "TMUS", "AMD", "CSCO", "PEP", "ADBE", "LIN",
  "AZN", "TXN", "QCOM", "INTU", "ISRG", "AMGN", "CMCSA", "PDD", "BKNG",
  "AMAT", "HON", "VRTX", "PANW", "ADP", "MU", "GILD", "ADI", "SBUX",
  "MELI", "INTC", "LRCX", "KLAC", "MDLZ", "REGN", "CTAS", "SNPS", "CDNS",
  "PYPL", "CRWD", "MRVL", "MAR", "CSX", "ORLY", "WDAY", "CHTR", "ADSK",
  "FTNT", "TTD", "ROP", "PCAR", "NXPI", "TEAM", "FANG", "MNST", "CPRT",
  "PAYX", "AEP", "ODFL", "ROST", "FAST", "KDP", "DDOG", "EA", "BKR",
  "KHC", "MCHP", "VRSK", "CTSH", "LULU", "EXC", "XEL", "CCEP", "IDXX",
  "ON", "CSGP", "ZS", "TTWO", "ANSS", "CDW", "DXCM", "BIIB", "ILMN",
  "MDB", "WBD", "MRNA", "DLTR", "WBA"]

/-- Constant `EXCLUDED_TICKERS` from the source. -/
def EXCLUDED_TICKERS : List String := ["ARM", "ABNB", "CEG", "DASH", "GEHC", "GFS"]

/-- Constant `TREASURY_BOND = "^TYX"`. -/
def TREASURY_BOND : String := "^TYX"

/-- Constant `SP100_INDEX = "^OEX"`. -/
def SP100_INDEX : String := "^OEX"

/-- Constant `END_DATE` of the source (`pd.Timestamp` of 2024-11-16), as
days since 1970-01-01; it is a Saturday. -/
def END_DATE : ℤ := 20043

/-- Python `date.weekday()`: Monday = 0 … Sunday = 6.  Day 0 of our
encoding (1970-01-01) is a Thursday, hence the `+ 3`. -/
def weekday (d : ℤ) : ℤ := (d + 3) % 7

/-- Python `str.strip()`: remove leading and trailing whitespace. -/
def pyStrip (s : String) : String :=
  ⟨((s.data.dropWhile Char.isWhitespace).reverse.dropWhile Char.isWhitespace).reverse⟩

/-- Constructor `__init__`: `self.tickers = [t.strip() for t in self.DEFAULT_TICKERS
if t.strip() not in self.EXCLUDED_TICKERS]`. -/
def mkTickers (defaults excluded : List String) : List String :=
  (defaults.map pyStrip).filter (fun t => decide (t ∉ excluded))

/-- The day-count adjustment of pandas `BusinessDay` ("BDay"); transcription
of `BusinessDay._adjust_ndays` in `pandas/_libs/tslibs/offsets.pyx`:
given the offset count `n`, the weekday `wday` of the anchor date and the
precomputed `weeks = n // 5`, it returns the residual day shift. -/
def bdayAdjust (n wday weeks : ℤ) : ℤ :=
  let n1 := if n ≤ 0 ∧ wday > 4 then n + 1 else n
  let n2 := n1 - 5 * weeks
  if n2 = 0 ∧ wday > 4 then 4 - wday
  else if wday > 4 then (7 - wday) + (n2 - 1)
  else if wday + n2 ≤ 4 then n2
  else n2 + 2

/-- pandas: `timestamp + BDay(n)`.  `n // 5` is Python floor division,
i.e. `Int.fdiv`. -/
def bdayApply (n d : ℤ) : ℤ :=
  d + 7 * Int.fdiv n 5 + bdayAdjust n (weekday d) (Int.fdiv n 5)

/-- pandas: `d - BDay(n)`, which pandas evaluates as `d + BDay(-n)`. -/
def bdaySub (d n : ℤ) : ℤ := bdayApply (-n) d

/-- Python exceptions relevant to the embedded code. -/
inductive PyError where
  | valueError (msg : String)
  | attributeError (msg : String)
deriving DecidableEq

/-- The message of the `ValueError` raised by `get_start_date`. -/
def INVALID_MSG : String := "start_input must be date string, datetime, or integer days"

/-- The message of the `AttributeError` raised when `df` is `None`
(the NoneType-has-no-attribute message). -/
def ATTR_MSG : String := "NoneType object has no attribute"

/-- The runtime type of `start_input` as dispatched by the `isinstance`
checks in `get_start_date`: a `str` (whose parse is delegated to the
`parse` oracle), a `pd.Timestamp`, a `datetime`, an `int`, or one of the
rejected types (`float`, `None`). -/
inductive StartInput where
  | strInput (s : String)
  | timestampInput (d : ℤ)
  | datetimeInput (d : ℤ)
  | intInput (n : ℤ)
  | floatInput (x : ℚ)
  | noneInput
deriving DecidableEq

/-- Date resolution `get_start_date`:
`str`/`pd.Timestamp`/`datetime` → `pd.Timestamp(start_input)` (for a
string this parses, raising `ValueError` if unparseable; for date values
it is the identity); `int` → `END_DATE - BDay(n)`; anything else →
`ValueError("start_input must be date string, datetime, or integer days")`. -/
def get_start_date (parse : String → Option ℤ) : StartInput → Except PyError ℤ
  | .strInput s =>
      match parse s with
      | some d => .ok d
      | none => .error (.valueError ("could not convert string to Timestamp: " ++ s))
  | .timestampInput d => .ok d
  | .datetimeInput d => .ok d
  | .intInput n => .ok (bdaySub END_DATE n)
  | .floatInput _ => .error (.valueError INVALID_MSG)
  | .noneInput => .error (.valueError INVALID_MSG)

/-- A successfully fetched and shaped single-column series, as produced by
`download_single_ticker`: the value column renamed to the ticker, the
index normalised to calendar days. -/
structure ColSeries where
  name : String
  entries : List (ℤ × ℚ)
deriving DecidableEq

/-- The date index of a fetched series. -/
def ColSeries.dates (s : ColSeries) : List ℤ := s.entries.map Prod.fst

/-- The accumulated wide table: a date index (in current row order), the
column names, and a cell function (`none` = missing/NaN). -/
structure SeriesTable where
  dates : List ℤ
  cols : List String
  cell : ℤ → String → Option ℚ

/-- State of `pd.DataFrame()` once joins give it columns but no rows (and the
initial empty frame, for the reference joins). -/
def emptyTable : SeriesTable := ⟨[], [], fun _ _ => none⟩

/-- The frame `pd.DataFrame(price_data)` of a single fetched series. -/
def fromSeries (s : ColSeries) : SeriesTable :=
  { dates := s.dates
    cols := [s.name]
    cell := fun d c => if c = s.name then s.entries.lookup d else none }

/-- Outer join `df.join(other, how="outer")`: pandas keeps the ordered union of the
two date indexes — the left index unchanged when the indexes are equal,
otherwise the sorted union; cells absent from a series stay NaN. -/
def outerJoin (t : SeriesTable) (s : ColSeries) : SeriesTable :=
  { dates :=
      if s.dates = t.dates then t.dates
      else List.insertionSort (· ≤ ·)
        (t.dates ++ s.dates.filter (fun d => decide (d ∉ t.dates)))
    cols := t.cols ++ [s.name]
    cell := fun d c => if c = s.name then s.entries.lookup d else t.cell d c }

/-- Inner join `df.join(other, how="inner")`: restrict the left index to dates also
present in the new series (left order preserved). -/
def innerJoin (t : SeriesTable) (s : ColSeries) : SeriesTable :=
  { dates := t.dates.filter (fun d => decide (d ∈ s.dates))
    cols := t.cols ++ [s.name]
    cell := fun d c => if c = s.name then s.entries.lookup d else t.cell d c }

/-- Forward fill (`fillna` with the pad method), carrying the last seen value. -/
def ffillAux : Option ℚ → List (Option ℚ) → List (Option ℚ)
  | _, [] => []
  | prev, v :: rest =>
    match v with
    | some x => some x :: ffillAux (some x) rest
    | none => prev :: ffillAux prev rest

/-- pandas `Series.pct_change(periods)`: forward-fill, then
`data / data.shift(periods) - 1` elementwise; arithmetic with a missing
operand is missing. -/
def pct_change (w : ℕ) (vs : List (Option ℚ)) : List (Option ℚ) :=
  let data := ffillAux none vs
  let shifted := List.take data.length (List.replicate w none ++ data)
  List.zipWith
    (fun a b =>
      match a, b with
      | some x, some y => some (x / y - 1)
      | _, _ => none) data shifted

/-- Assignment `df[dst] = df[src].pct_change(w)`: append column `dst` holding the
windowed percentage change of column `src`, computed over the table's
current row order. -/
def addPctColumn (t : SeriesTable) (src dst : String) (w : ℕ) : SeriesTable :=
  let pcts := pct_change w (t.dates.map (fun d => t.cell d src))
  { dates := t.dates
    cols := t.cols ++ [dst]
    cell := fun d c =>
      if c = dst then
        match t.dates.findIdx? (fun x => x == d) with
        | some i => pcts.getD i none
        | none => none
      else t.cell d c }

/-- The possible values of the Python variable `df` inside
`load_all_data`: the initial `pd.DataFrame()`, an actual table, or
`None` (assigned when `df` was empty and the fetch failed). -/
inductive DFState where
  | empty
  | noneDF
  | table (t : SeriesTable)

/-- One iteration of the `for ticker in self.tickers` loop of
`load_all_data`.  When `df` is `None`, `df.empty` raises
`AttributeError`, which the loop's own `except` swallows, so the state
is unchanged; when `df` is empty, the fetch result (possibly `None`) is
assigned to `df`; otherwise a successful fetch is outer-joined and a
failed fetch is skipped. -/
def loopStep (fetch : String → ℤ → Option ColSeries) (sd : ℤ)
    (st : DFState) (ticker : String) : DFState :=
  match st with
  | .noneDF => .noneDF
  | .empty =>
      match fetch ticker sd with
      | some s => .table (fromSeries s)
      | none => .noneDF
  | .table t =>
      if t.dates.isEmpty then
        match fetch ticker sd with
        | some s => .table (fromSeries s)
        | none => .noneDF
      else
        match fetch ticker sd with
        | some s => .table (outerJoin t s)
        | none => .table t

/-- Name of the derived column `f"{self.TREASURY_BOND}_pct_change_20"`. -/
def TYX_PCT_COL : String := "^TYX_pct_change_20"

/-- First half of the `if include_indices:` block: fetch the treasury
series; on success inner-join it (onto a `None` frame this raises an
uncaught `AttributeError`) and derive its 20-row pct-change column; on
failure skip. -/
def treasuryStep (fetch : String → ℤ → Option ColSeries) (sd : ℤ)
    (st : DFState) : Except PyError DFState :=
  match fetch TREASURY_BOND sd with
  | none => .ok st
  | some s =>
    match st with
    | .noneDF => .error (.attributeError ATTR_MSG)
    | .empty => .ok (.table (addPctColumn (innerJoin emptyTable s) TREASURY_BOND TYX_PCT_COL 20))
    | .table t => .ok (.table (addPctColumn (innerJoin t s) TREASURY_BOND TYX_PCT_COL 20))

/-- Second half of the `if include_indices:` block: fetch the S&P 100
series; on success inner-join it (raising on a `None` frame), on failure
skip. -/
def sp100Step (fetch : String → ℤ → Option ColSeries) (sd : ℤ)
    (st : DFState) : Except PyError DFState :=
  match fetch SP100_INDEX sd with
  | none => .ok st
  | some s =>
    match st with
    | .noneDF => .error (.attributeError ATTR_MSG)
    | .empty => .ok (.table (innerJoin emptyTable s))
    | .table t => .ok (.table (innerJoin t s))

/-- The whole `if include_indices:` block of `load_all_data`. -/
def refJoins (fetch : String → ℤ → Option ColSeries) (sd : ℤ)
    (st : DFState) : Except PyError DFState :=
  match treasuryStep fetch sd st with
  | .error e => .error e
  | .ok st2 => sp100Step fetch sd st2

/-- Sorting `df.sort_index()`: stable ascending sort of the rows by date. -/
def sortTable (t : SeriesTable) : SeriesTable :=
  { t with dates := List.insertionSort (· ≤ ·) t.dates }

/-- The final `return df.sort_index()`: raises `AttributeError` when `df`
is `None`. -/
def finalize : DFState → Except PyError SeriesTable
  | .noneDF => .error (.attributeError ATTR_MSG)
  | .empty => .ok emptyTable
  | .table t => .ok (sortTable t)

/-- Pipeline body `load_all_data(start_date, include_indices)`, generic in the ticker
list (`self.tickers`) and the fetch oracle. -/
def load_all_data (fetch : String → ℤ → Option ColSeries)
    (tickers : List String) (start_date : ℤ) (include_indices : Bool) :
    Except PyError SeriesTable :=
  let st := tickers.foldl (loopStep fetch start_date) .empty
  if include_indices then
    match refJoins fetch start_date st with
    | .error e => .error e
    | .ok st2 => finalize st2
  else finalize st

/-- Entry point `get_data(start_input, include_indices)` on the constructed instance:
resolve the start date (propagating its `ValueError`), then run
`load_all_data` over `self.tickers`. -/
def get_data (parse : String → Option ℤ) (fetch : String → ℤ → Option ColSeries)
    (start_input : StartInput) (include_indices : Bool) :
    Except PyError SeriesTable :=
  match get_start_date parse start_input with
  | .error e => .error e
  | .ok sd => load_all_data fetch (mkTickers DEFAULT_TICKERS EXCLUDED_TICKERS) sd include_indices

/-- The date index of a pipeline result; an aborted run contributes no
table, hence no dates. -/
def resultDates : Except PyError SeriesTable → List ℤ
  | .ok t => t.dates
  | .error _ => []

/-- The column names of a pipeline result. -/
def resultCols : Except PyError SeriesTable → List String
  | .ok t => t.cols
  | .error _ => []

/-- Well-formedness of the incrementally built table, as the spec's
`SeriesTable` invariant requires between steps: unique dates. -/
def stateNodup : DFState → Prop
  | .table t => t.dates.Nodup
  | _ => True

/-- Modelled from the spec: "exactly `n` business days earlier (weekends
excluded)" — the latest weekday strictly before `d`.  Used as the
reference meaning of business-day lookback when checking `get_start_date`. -/
def prevBday (d : ℤ) : ℤ :=
  if weekday d = 0 then d - 3
  else if weekday d = 6 then d - 2
  else d - 1

/-- Modelled from the spec: the date exactly `n` business days earlier
than `d` (weekends excluded, holidays not excluded). -/
def specBack : ℕ → ℤ → ℤ
  | 0, d => d
  | n + 1, d => prevBday (specBack n d)

/-- Modelled from the spec: the earliest weekday strictly after `d`. -/
def nextBday (d : ℤ) : ℤ :=
  if weekday d = 4 then d + 3
  else if weekday d = 5 then d + 2
  else d + 1

/-- Modelled from the spec: the date exactly `n` business days later
than `d` (weekends excluded). -/
def specForward : ℕ → ℤ → ℤ
  | 0, d => d
  | n + 1, d => nextBday (specForward n d)

/-- Demo parse oracle for witnesses: parses the one string "2020-01-01"
(day 18262). -/
def parseDemo : String → Option ℤ :=
  fun s => if s = "2020-01-01" then some 18262 else none

/-- Demo accumulated table: one equity column on dates 1 and 2. -/
def tAAA : SeriesTable := fromSeries ⟨"AAA", [(1, 10), (2, 11)]⟩

/-- Demo equity series on the disjoint dates 3 and 4. -/
def sBBB : ColSeries := ⟨"BBB", [(3, 12), (4, 13)]⟩

/-- Demo accumulated table on dates 1, 2, 3. -/
def tTri : SeriesTable := fromSeries ⟨"AAA", [(1, 10), (2, 11), (3, 12)]⟩

/-- Demo reference series whose dates 2, 3 are a strict subset of the
dates of `tTri`. -/
def sSub : ColSeries := ⟨"^TYX", [(2, 5), (3, 6)]⟩

/-- Demo reference column with 21 rows of known values. -/
def tyxDemo : List ℚ :=
  [30, 31, 32, 33, 34, 35, 36, 37, 38, 39, 40,
   41, 42, 43, 44, 45, 46, 47, 48, 49, 60]

/-- Demo fetch oracle for which the very first universe symbol (NVDA)
fails and every other fetch succeeds. -/
def fetchFailFirst : String → ℤ → Option ColSeries :=
  fun tkr _ => if tkr = "NVDA" then none else some ⟨tkr, [(1, 5)]⟩

/-- Demo fetch oracle for which the second universe symbol (AAPL) fails
and every other fetch succeeds. -/
def fetchFailSecond : String → ℤ → Option ColSeries :=
  fun tkr _ => if tkr = "AAPL" then none else some ⟨tkr, [(1, 5)]⟩

/-- Demo fetch oracle for which every fetch succeeds with a one-row
series. -/
def fetchAll1 : String → ℤ → Option ColSeries := fun tkr _ => some ⟨tkr, [(1, 2)]⟩

/-- Closed form of `END_DATE - BDay(n)` for `n ≥ 1`: from the Saturday
anchor, pandas lands `7 * (n / 5) - 2` days back when `5 ∣ n`, else
`7 * (n / 5) + n % 5` days back. -/
theorem bdayApply_end_neg (n : ℕ) (hn : 1 ≤ n) :
    bdayApply (-(n : ℤ)) END_DATE =
      END_DATE - (if n % 5 = 0 then 7 * ((n : ℤ) / 5) - 2 else 7 * ((n : ℤ) / 5) + (n : ℤ) % 5) := by
  have h5 : (0 : ℤ) ≤ 5 := by norm_num
  simp only [bdayApply, bdayAdjust, weekday, END_DATE, Int.fdiv_eq_ediv _ h5]
  split_ifs <;> omega

/-- Closed form of `END_DATE + BDay(n)` for `n ≥ 1`. -/
theorem bdayApply_end_pos (n : ℕ) (hn : 1 ≤ n) :
    bdayApply ((n : ℤ)) END_DATE =
      END_DATE + (if n % 5 = 0 then 7 * ((n : ℤ) / 5) - 1 else 7 * ((n : ℤ) / 5) + (n : ℤ) % 5 + 1) := by
  have h5 : (0 : ℤ) ≤ 5 := by norm_num
  simp only [bdayApply, bdayAdjust, weekday, END_DATE, Int.fdiv_eq_ediv _ h5]
  split_ifs <;> omega

/-- Closed form of walking back `n ≥ 1` business days from `END_DATE`. -/
theorem specBack_end (n : ℕ) (hn : 1 ≤ n) :
    specBack n END_DATE =
      END_DATE - (if n % 5 = 0 then 7 * ((n : ℤ) / 5) - 2 else 7 * ((n : ℤ) / 5) + (n : ℤ) % 5) := by
  induction n with
  | zero => omega
  | succ m ih =>
    cases m with
    | zero => decide
    | succ k =>
      have h1 : 1 ≤ k + 1 := by omega
      simp only [specBack] at ih ⊢
      rw [ih h1]
      simp only [prevBday, weekday, END_DATE]
      split_ifs <;> omega

/-- Closed form of walking forward `n ≥ 1` business days from `END_DATE`. -/
theorem specForward_end (n : ℕ) (hn : 1 ≤ n) :
    specForward n END_DATE =
      END_DATE + (if n % 5 = 0 then 7 * ((n : ℤ) / 5) - 1 else 7 * ((n : ℤ) / 5) + (n : ℤ) % 5 + 1) := by
  induction n with
  | zero => omega
  | succ m ih =>
    cases m with
    | zero => decide
    | succ k =>
      have h1 : 1 ≤ k + 1 := by omega
      simp only [specForward] at ih ⊢
      rw [ih h1]
      simp only [nextBday, weekday, END_DATE]
      split_ifs <;> omega

/-- Association-list lookup misses exactly outside the key set. -/
theorem lookup_eq_none (l : List (ℤ × ℚ)) (d : ℤ) (h : d ∉ l.map Prod.fst) :
    l.lookup d = none := by
  induction l with
  | nil => rfl
  | cons p rest ih =>
    obtain ⟨k, v⟩ := p
    simp only [List.map_cons, List.mem_cons, not_or] at h
    simpa [List.lookup, beq_eq_false_iff_ne.mpr h.1] using ih h.2

/-- Forward filling a column with no missing values is the identity. -/
theorem ffill_map_some (p : Option ℚ) (vs : List ℚ) :
    ffillAux p (vs.map some) = vs.map some := by
  induction vs generalizing p with
  | nil => rfl
  | cons x rest ih => simp [ffillAux, ih]

/-- Elementwise description of `List.zipWith`. -/
theorem getElem_opt_zipWith {α β γ : Type} (f : α → β → γ) (as : List α) (bs : List β) (i : ℕ) :
    (List.zipWith f as bs)[i]? =
      match as[i]?, bs[i]? with
      | some a, some b => some (f a b)
      | some _, none => none
      | none, _ => none := by
  induction as generalizing bs i with
  | nil => cases bs <;> cases i <;> simp
  | cons a as ih =>
    cases bs with
    | nil =>
      cases i with
      | zero => simp
      | succ n =>
        show (none : Option γ) = _
        cases h : as[n]? <;> simp [h]
    | cons b bs =>
      cases i with
      | zero => simp
      | succ j => simpa [List.zipWith] using ih bs j

/-- An outer join of tables with unique dates has unique dates. -/
theorem outerJoin_nodup {t : SeriesTable} {s : ColSeries}
    (ht : t.dates.Nodup) (hs : s.dates.Nodup) : (outerJoin t s).dates.Nodup := by
  simp only [outerJoin]
  split_ifs with heq
  · exact ht
  · refine ((List.perm_insertionSort _ _).nodup_iff).mpr ?_
    rw [List.nodup_append]
    refine ⟨ht, hs.filter _, ?_⟩
    intro x hx hx2
    simp only [List.mem_filter, decide_eq_true_eq] at hx2
    exact hx2.2 hx

/-- An inner join preserves unique dates. -/
theorem innerJoin_nodup {t : SeriesTable} {s : ColSeries}
    (ht : t.dates.Nodup) : (innerJoin t s).dates.Nodup := ht.filter _

/-- Deriving a column does not touch the date index. -/
theorem addPct_nodup {t : SeriesTable} {src dst : String} {w : ℕ}
    (ht : t.dates.Nodup) : (addPctColumn t src dst w).dates.Nodup := ht

/-- One universe-loop iteration preserves unique dates (given that every
fetched series has unique dates). -/
theorem loopStep_nodup (fetch : String → ℤ → Option ColSeries) (sd : ℤ)
    (hf : ∀ tkr sd s, fetch tkr sd = some s → s.dates.Nodup)
    (st : DFState) (hst : stateNodup st) (tkr : String) :
    stateNodup (loopStep fetch sd st tkr) := by
  cases st with
  | noneDF => trivial
  | empty =>
    cases h : fetch tkr sd with
    | none => simp [loopStep, h, stateNodup]
    | some s => simpa [loopStep, h, stateNodup, fromSeries] using hf _ _ _ h
  | table t =>
    cases h : fetch tkr sd with
    | none =>
      simp only [loopStep, h]
      split
      · trivial
      · exact hst
    | some s =>
      simp only [loopStep, h]
      split
      · exact hf _ _ _ h
      · exact outerJoin_nodup hst (hf _ _ _ h)

/-- The whole universe loop preserves unique dates. -/
theorem foldl_loopStep_nodup (fetch : String → ℤ → Option ColSeries) (sd : ℤ)
    (hf : ∀ tkr sd s, fetch tkr sd = some s → s.dates.Nodup)
    (tickers : List String) (st : DFState) (hst : stateNodup st) :
    stateNodup (tickers.foldl (loopStep fetch sd) st) := by
  induction tickers generalizing st with
  | nil => exact hst
  | cons t rest ih => exact ih _ (loopStep_nodup fetch sd hf st hst t)

/-- The treasury reference step preserves unique dates. -/
theorem treasuryStep_nodup (fetch : String → ℤ → Option ColSeries) (sd : ℤ)
    (st st2 : DFState) (hst : stateNodup st)
    (h : treasuryStep fetch sd st = .ok st2) : stateNodup st2 := by
  unfold treasuryStep at h
  cases h1 : fetch TREASURY_BOND sd with
  | none => rw [h1] at h; cases h; exact hst
  | some s =>
    rw [h1] at h
    cases st with
    | noneDF => cases h
    | empty =>
      cases h
      show (addPctColumn (innerJoin emptyTable s) _ _ _).dates.Nodup
      exact addPct_nodup (innerJoin_nodup (by simp [emptyTable]))
    | table t =>
      cases h
      exact addPct_nodup (innerJoin_nodup hst)

/-- The S&P 100 reference step preserves unique dates. -/
theorem sp100Step_nodup (fetch : String → ℤ → Option ColSeries) (sd : ℤ)
    (st st2 : DFState) (hst : stateNodup st)
    (h : sp100Step fetch sd st = .ok st2) : stateNodup st2 := by
  unfold sp100Step at h
  cases h1 : fetch SP100_INDEX sd with
  | none => rw [h1] at h; cases h; exact hst
  | some s =>
    rw [h1] at h
    cases st with
    | noneDF => cases h
    | empty =>
      cases h
      show (innerJoin emptyTable s).dates.Nodup
      exact innerJoin_nodup (by simp [emptyTable])
    | table t =>
      cases h
      exact innerJoin_nodup hst

/-- The whole reference block preserves unique dates. -/
theorem refJoins_nodup (fetch : String → ℤ → Option ColSeries) (sd : ℤ)
    (st st2 : DFState) (hst : stateNodup st)
    (h : refJoins fetch sd st = .ok st2) : stateNodup st2 := by
  unfold refJoins at h
  cases h1 : treasuryStep fetch sd st with
  | error e => rw [h1] at h; cases h
  | ok stm =>
    rw [h1] at h
    exact sp100Step_nodup fetch sd stm st2 (treasuryStep_nodup fetch sd st stm hst h1) h

/-- A weakly sorted list without duplicates is strictly sorted. -/
theorem sorted_lt_of_nodup {l : List ℤ} (hs : List.Sorted (· ≤ ·) l) (hn : l.Nodup) :
    List.Sorted (· < ·) l :=
  (hs.and hn).imp (fun h => lt_of_le_of_ne h.1 h.2)

/-- Finalizing a well-formed state yields strictly sorted dates. -/
theorem finalize_sorted (st : DFState) (hst : stateNodup st) :
    List.Sorted (· < ·) (resultDates (finalize st)) := by
  cases st with
  | noneDF => simp [finalize, resultDates]
  | empty => simp [finalize, resultDates, emptyTable]
  | table t =>
    simp only [finalize, resultDates, sortTable]
    exact sorted_lt_of_nodup (List.sorted_insertionSort _ _)
      (((List.perm_insertionSort _ _).nodup_iff).mpr hst)

/-- Claim C1 (code evaluation at the failing input).  The claim states
that if fetching symbol X fails the returned table merely omits column X
and the pipeline never aborts, for every position of X including the
first.  Evaluating the code: when the first universe symbol (NVDA) is
the one that fails, `df` is assigned `None` and `get_data` raises an
uncaught `AttributeError` instead of returning a table — with and
without reference indices.  By contrast, when a later symbol (AAPL)
fails, the claimed isolation does hold: the returned table omits the
AAPL column and keeps the others. -/
theorem C1_first_fetch_failure_aborts :
    get_data (fun _ => none) fetchFailFirst (.intInput 10) false
        = .error (.attributeError ATTR_MSG) ∧
      get_data (fun _ => none) fetchFailFirst (.intInput 10) true
        = .error (.attributeError ATTR_MSG) ∧
      "AAPL" ∉ resultCols (get_data (fun _ => none) fetchFailSecond (.intInput 10) false) ∧
      "MSFT" ∈ resultCols (get_data (fun _ => none) fetchFailSecond (.intInput 10) false) :=
  ⟨rfl, rfl, by decide, by decide⟩

/-- Claim C2 (counterexample).  The claim states that `get_start_date n`
returns a date ≤ `END_DATE` for every non-negative `n`, in particular
for `n = 0`.  In fact `get_start_date 0` returns `END_DATE + 2`
(Monday 2024-11-18): `END_DATE` is a Saturday and pandas `BDay(0)`
rolls it forward to the next business day; the result exceeds
`END_DATE` and is not 0 business days earlier. -/
theorem C2_counterexample :
    get_start_date (fun _ => none) (.intInput 0) = .ok (END_DATE + 2) ∧
      ¬ END_DATE + 2 ≤ END_DATE ∧ END_DATE + 2 ≠ specBack 0 END_DATE := by
  refine ⟨rfl, by decide, by decide⟩

/-- Claim C2 (amended).  For every positive integer `n`, `get_start_date`
resolves the lookback `n` to exactly `n` business days before `END_DATE`
(weekends excluded, holidays not), a date ≤ `END_DATE`; the original
claim fails only at `n = 0`, where the Saturday `END_DATE` is rolled
forward to Monday 2024-11-18 > `END_DATE`. -/
theorem C2_lookback_resolution (parse : String → Option ℤ) (n : ℕ) (hn : 1 ≤ n) :
    get_start_date parse (.intInput (n : ℤ)) = .ok (specBack n END_DATE) ∧
      specBack n END_DATE ≤ END_DATE := by
  constructor
  · show Except.ok (bdaySub END_DATE (n : ℤ)) = _
    rw [show bdaySub END_DATE (n : ℤ) = bdayApply (-(n : ℤ)) END_DATE from rfl,
      bdayApply_end_neg n hn, specBack_end n hn]
  · rw [specBack_end n hn]; split_ifs <;> omega

/-- Witness for C2 (amended) at the concrete lookback 7. -/
theorem C2_lookback_resolution_witness :
    get_start_date (fun _ => none) (.intInput ((7 : ℕ) : ℤ)) = .ok (specBack 7 END_DATE) ∧
      specBack 7 END_DATE ≤ END_DATE :=
  C2_lookback_resolution (fun _ => none) 7 (by norm_num)

/-- Claim C3.  `get_start_date` fails if and only if its input is
neither a date value (a `pd.Timestamp`, a `datetime`, or a string the
date parser accepts) nor an integer; date values and parseable strings
are returned verbatim with no calendar adjustment; the rejected types
(`float` such as 3.5, `None`) raise the `ValueError` naming the
accepted forms. -/
theorem C3_input_validation (parse : String → Option ℤ) (i : StartInput) :
    ((∃ e, get_start_date parse i = .error e) ↔
      ¬ ((∃ s d, i = .strInput s ∧ parse s = some d) ∨
         (∃ d, i = .timestampInput d) ∨ (∃ d, i = .datetimeInput d) ∨
         (∃ n, i = .intInput n))) ∧
    (∀ d, i = .timestampInput d ∨ i = .datetimeInput d → get_start_date parse i = .ok d) ∧
    (∀ s d, i = .strInput s → parse s = some d → get_start_date parse i = .ok d) ∧
    ((∃ x, i = .floatInput x) ∨ i = .noneInput →
      get_start_date parse i = .error (.valueError INVALID_MSG)) := by
  cases i with
  | strInput s =>
    cases h : parse s with
    | none =>
      simp only [get_start_date, h]
      refine ⟨?_, ?_, ?_, ?_⟩ <;> simp [h]; rintro s' d rfl hp; simp [h] at hp
    | some d =>
      simp only [get_start_date, h]
      refine ⟨?_, ?_, ?_, ?_⟩ <;> simp [h]; rintro s' d' rfl hp;
        simp only [h, Option.some.injEq] at hp; omega
  | timestampInput d => simp [get_start_date]
  | datetimeInput d => simp [get_start_date]
  | intInput n => simp [get_start_date]
  | floatInput x => simp [get_start_date]
  | noneInput => simp [get_start_date]

/-- Witness for C3: a parseable date string is returned verbatim, while
`None` and 3.5 raise the `ValueError` naming the accepted forms. -/
theorem C3_input_validation_witness :
    get_start_date parseDemo (.strInput "2020-01-01") = .ok 18262 ∧
      get_start_date parseDemo .noneInput = .error (.valueError INVALID_MSG) ∧
      get_start_date parseDemo (.floatInput (7 / 2)) = .error (.valueError INVALID_MSG) :=
  ⟨(C3_input_validation parseDemo _).2.2.1 "2020-01-01" 18262 rfl (by decide),
   (C3_input_validation parseDemo _).2.2.2 (Or.inr rfl),
   (C3_input_validation parseDemo _).2.2.2 (Or.inl ⟨7 / 2, rfl⟩)⟩

/-- Claim C4.  The universe is the default inclusion list minus the
exclusion set: for any contents of the two lists, every excluded symbol
is absent from the constructed universe; the construction preserves
freedom from duplicates; and the actual constructed universe
(`DEFAULT_TICKERS` minus `EXCLUDED_TICKERS`) has no duplicate symbol.
(The universe is a pure value in this embedding, so post-construction
immutability is automatic.) -/
theorem C4_universe_exclusion :
    (∀ (defaults excluded : List String) (x : String),
        x ∈ excluded → x ∉ mkTickers defaults excluded) ∧
    (∀ defaults excluded : List String,
        (defaults.map pyStrip).Nodup → (mkTickers defaults excluded).Nodup) ∧
    (mkTickers DEFAULT_TICKERS EXCLUDED_TICKERS).Nodup := by
  refine ⟨?_, ?_, by decide⟩
  · intro D E x hx hmem
    simp only [mkTickers, List.mem_filter, decide_eq_true_eq] at hmem
    exact hmem.2 hx
  · intro D E h
    exact h.filter _

/-- Witness for C4: AAPL is excluded whichever way the lists are
ordered. -/
theorem C4_universe_exclusion_witness :
    "AAPL" ∉ mkTickers ["MSFT", "AAPL"] ["AAPL"] ∧
      "AAPL" ∉ mkTickers ["AAPL", "MSFT"] ["AAPL"] :=
  ⟨C4_universe_exclusion.1 ["MSFT", "AAPL"] ["AAPL"] "AAPL" (by decide),
   C4_universe_exclusion.1 ["AAPL", "MSFT"] ["AAPL"] "AAPL" (by decide)⟩

/-- Claim C5.  Outer-merging an equity series into a non-empty
accumulated table yields exactly the union of the date sets; a date
absent from the new series leaves that column missing (`none`, never a
zero value), and the other columns are untouched. -/
theorem C5_outer_merge (t : SeriesTable) (s : ColSeries) (ht : t.dates ≠ []) :
    (∀ d, d ∈ (outerJoin t s).dates ↔ d ∈ t.dates ∨ d ∈ s.dates) ∧
    (∀ d, d ∉ s.dates → (outerJoin t s).cell d s.name = none) ∧
    (∀ d c, c ≠ s.name → (outerJoin t s).cell d c = t.cell d c) := by
  refine ⟨?_, ?_, ?_⟩
  · intro d
    simp only [outerJoin]
    split_ifs with heq
    · rw [heq]; tauto
    · rw [(List.perm_insertionSort _ _).mem_iff]
      simp only [List.mem_append, List.mem_filter, decide_eq_true_eq]
      constructor
      · rintro (h | ⟨h, _⟩)
        · exact Or.inl h
        · exact Or.inr h
      · rintro (h | h)
        · exact Or.inl h
        · by_cases hd : d ∈ t.dates
          · exact Or.inl hd
          · exact Or.inr ⟨h, hd⟩
  · intro d hd
    simp only [outerJoin, if_pos rfl]
    exact lookup_eq_none _ _ hd
  · intro d c hc
    simp only [outerJoin, if_neg hc]

/-- Witness for C5 on the disjoint date sets 1, 2 and 3, 4: date 4 joins
the union, and the old column AAA has no value on it while the new
column BBB is missing on old date 1. -/
theorem C5_outer_merge_witness :
    (4 ∈ (outerJoin tAAA sBBB).dates ↔ 4 ∈ tAAA.dates ∨ 4 ∈ sBBB.dates) ∧
      (outerJoin tAAA sBBB).cell 1 "BBB" = none ∧
      (outerJoin tAAA sBBB).cell 4 "AAA" = tAAA.cell 4 "AAA" :=
  ⟨(C5_outer_merge tAAA sBBB (by decide)).1 4,
   (C5_outer_merge tAAA sBBB (by decide)).2.1 1 (by decide),
   (C5_outer_merge tAAA sBBB (by decide)).2.2 4 "AAA" (by decide)⟩

/-- Claim C6.  Inner-merging a reference series restricts the table to
exactly the intersection of the date sets; when the reference dates are
a subset of the table dates the result is exactly that subset. -/
theorem C6_inner_merge (t : SeriesTable) (s : ColSeries) :
    (∀ d, d ∈ (innerJoin t s).dates ↔ d ∈ t.dates ∧ d ∈ s.dates) ∧
    ((∀ d, d ∈ s.dates → d ∈ t.dates) →
      ∀ d, d ∈ (innerJoin t s).dates ↔ d ∈ s.dates) := by
  have h1 : ∀ d, d ∈ (innerJoin t s).dates ↔ d ∈ t.dates ∧ d ∈ s.dates := by
    intro d; simp [innerJoin, List.mem_filter]
  exact ⟨h1, fun hsub d => by rw [h1 d]; exact ⟨fun h => h.2, fun h => ⟨hsub d h, h⟩⟩⟩

/-- Witness for C6 on a reference series with dates 2, 3, a strict
subset of the table dates 1, 2, 3. -/
theorem C6_inner_merge_witness :
    (2 ∈ (innerJoin tTri sSub).dates ↔ 2 ∈ tTri.dates ∧ 2 ∈ sSub.dates) ∧
      (1 ∈ (innerJoin tTri sSub).dates ↔ 1 ∈ sSub.dates) :=
  ⟨(C6_inner_merge tTri sSub).1 2, (C6_inner_merge tTri sSub).2 (by decide) 1⟩

/-- Claim C7.  For a reference column of known values, the derived
20-window percentage-change column is missing (`none`, never zero) at
every row `i < 20`, and at any row `i ≥ 20` whose window base is
nonzero it equals `(value_i - value_(i-20)) / value_(i-20)` — rows
counted in the current table order. -/
theorem C7_pct_change (vs : List ℚ) (i : ℕ) (hi : i < vs.length) :
    (i < 20 → (pct_change 20 (vs.map some))[i]? = some none) ∧
    (20 ≤ i → ∀ x y, vs[i]? = some x → vs[i - 20]? = some y → y ≠ 0 →
      (pct_change 20 (vs.map some))[i]? = some (some ((x - y) / y))) := by
  obtain ⟨x0, hx0⟩ : ∃ x, vs[i]? = some x := ⟨vs[i], List.getElem?_eq_getElem hi⟩
  constructor
  · intro h20
    simp only [pct_change, ffill_map_some, getElem_opt_zipWith]
    have hshift : (List.take (vs.map some).length
        (List.replicate 20 (none : Option ℚ) ++ vs.map some))[i]? = some none := by
      rw [List.getElem?_take_of_lt (by simpa using hi),
        List.getElem?_append_left (by simp; omega), List.getElem?_replicate, if_pos h20]
    rw [hshift, List.getElem?_map, hx0]
    rfl
  · intro h20 x y hx hy hy0
    simp only [pct_change, ffill_map_some, getElem_opt_zipWith]
    have hshift : (List.take (vs.map some).length
        (List.replicate 20 (none : Option ℚ) ++ vs.map some))[i]? = some (some y) := by
      rw [List.getElem?_take_of_lt (by simpa using hi),
        List.getElem?_append_right (by simp; omega)]
      simp only [List.length_replicate, List.getElem?_map, hy]
      rfl
    rw [hshift, List.getElem?_map, hx]
    show some (some (x / y - 1)) = some (some ((x - y) / y))
    have heq : x / y - 1 = (x - y) / y := by field_simp
    rw [heq]

/-- Witness for C7 on a 21-row column: rows 0 and 19 are missing, row 20
is the percentage change over the window. -/
theorem C7_pct_change_witness :
    (pct_change 20 (tyxDemo.map some))[0]? = some none ∧
      (pct_change 20 (tyxDemo.map some))[19]? = some none ∧
      (pct_change 20 (tyxDemo.map some))[20]? = some (some ((60 - 30) / 30)) :=
  ⟨(C7_pct_change tyxDemo 0 (by decide)).1 (by decide),
   (C7_pct_change tyxDemo 19 (by decide)).1 (by decide),
   (C7_pct_change tyxDemo 20 (by decide)).2 (by decide) 60 30 (by decide) (by decide) (by decide)⟩

/-- Claim C8 (code evaluation at the failing input).  The claim states
that merging a `None` series is a no-op for every state of the
accumulated table, including the initial empty table.  Evaluating the
code at that state: a failed fetch while `df` is the initial empty
frame assigns `None` to `df` — the state changes rather than staying
the empty table — and the enclosing `load_all_data` then raises an
uncaught `AttributeError` instead of returning the table. -/
theorem C8_none_merge_empty_state_poisons :
    loopStep (fun _ _ => none) 0 DFState.empty "NVDA" = DFState.noneDF ∧
      loopStep (fun _ _ => none) 0 DFState.empty "NVDA" ≠ DFState.empty ∧
      load_all_data (fun _ _ => none) ["NVDA"] 0 false = .error (.attributeError ATTR_MSG) :=
  ⟨rfl, fun h => DFState.noConfusion h, rfl⟩

/-- Claim C9.  Whenever `get_data` returns a table — for every start
specification, every `include_indices` flag and every pattern of fetch
successes and failures whose successful series have unique dates — the
table has unique dates sorted strictly ascending (an error run
contributes the trivially sorted empty date list). -/
theorem C9_sorted_unique_dates (parse : String → Option ℤ)
    (fetch : String → ℤ → Option ColSeries) (input : StartInput) (inc : Bool)
    (hf : ∀ tkr sd s, fetch tkr sd = some s → s.dates.Nodup) :
    List.Sorted (· < ·) (resultDates (get_data parse fetch input inc)) := by
  unfold get_data
  cases hsd : get_start_date parse input with
  | error e => simp [resultDates]
  | ok sd =>
    have hst := foldl_loopStep_nodup fetch sd hf
      (mkTickers DEFAULT_TICKERS EXCLUDED_TICKERS) .empty trivial
    unfold load_all_data
    cases inc with
    | false => simpa using finalize_sorted _ hst
    | true =>
      simp only [if_true]
      cases h2 : refJoins fetch sd
          ((mkTickers DEFAULT_TICKERS EXCLUDED_TICKERS).foldl (loopStep fetch sd) .empty) with
      | error e => simp [resultDates, h2]
      | ok st2 =>
        simpa [h2] using finalize_sorted st2 (refJoins_nodup fetch sd _ st2 hst h2)

/-- Witness for C9 with an all-succeeding one-row fetch oracle. -/
theorem C9_sorted_unique_dates_witness :
    List.Sorted (· < ·) (resultDates (get_data (fun _ => none) fetchAll1 (.intInput 5) false)) :=
  C9_sorted_unique_dates (fun _ => none) fetchAll1 (.intInput 5) false (by
    intro tkr sd s h
    simp only [fetchAll1, Option.some.injEq] at h
    subst h
    simp [ColSeries.dates])

/-- Claim C10.  `get_start_date` accepts every negative integer without
error and returns `END_DATE` minus that many business days — i.e.
`END_DATE` plus the absolute count of business days, a date strictly
after `END_DATE` — instead of failing with the invalid-argument
error. -/
theorem C10_negative_lookback (parse : String → Option ℤ) (n : ℤ) (hn : n < 0) :
    get_start_date parse (.intInput n) = .ok (specForward (-n).toNat END_DATE) ∧
      END_DATE < specForward (-n).toNat END_DATE := by
  obtain ⟨m, hm, h1⟩ : ∃ m : ℕ, -n = (m : ℤ) ∧ 1 ≤ m := ⟨(-n).toNat, by omega, by omega⟩
  have hmn : (-n).toNat = m := by omega
  rw [hmn]
  constructor
  · show Except.ok (bdaySub END_DATE n) = _
    rw [show bdaySub END_DATE n = bdayApply (-n) END_DATE from rfl, hm,
      bdayApply_end_pos _ h1, specForward_end _ h1]
  · rw [specForward_end _ h1]; split_ifs <;> omega

/-- Witness for C10 at the concrete negative lookback -3. -/
theorem C10_negative_lookback_witness :
    get_start_date (fun _ => none) (.intInput (-3)) = .ok (specForward (-(-3) : ℤ).toNat END_DATE) ∧
      END_DATE < specForward (-(-3) : ℤ).toNat END_DATE :=
  C10_negative_lookback (fun _ => none) (-3) (by norm_num)

end DataLoader2
